import Mathlib

/-!
# NAT66 inside-to-outside translation: shallow embedding and verification

This file embeds the per-packet decision-and-rewrite algorithm of the NAT66
in2out node (src/src/plugins/nat/nat66_in2out.c) in Lean 4 and proves the
stated properties of its specification.

Modelling conventions:
* machine integers are natural numbers with explicit wrap-around where the C
  code wraps (the 64-bit checksum accumulator);
* the packet buffer is the list of its 16-bit words: the fixed IPv6 header
  occupies words 0..19, the source address words 4..11, the destination
  address words 12..19, and the transport header starts at the parsed word
  offset;
* external collaborators (FIB lookup, interface-role registry, static-mapping
  table, header parser, thread id) are fields of an environment record, as the
  specification directs (section 9, injectable capability interfaces);
* fallible collaborators return Option.
-/

namespace Nat66

/-! ## Incremental checksum primitives

The primitives below are repository code that is not under src (vnet ip
packet helpers used at lines 199-203 of nat66_in2out.c), so they are
modelled from the specification (section 4.1). -/

/-- Wrap-around bound of the 64-bit unsigned checksum accumulator,
18446744073709551616 = 2 to the 64. -/
def U64 : ℕ := 18446744073709551616

/-- Modelled from the spec: one step of the one's-complement sum used when a
checksum is computed from scratch.  Adds x to the 64-bit accumulator s,
folding the end-around carry from the high bit back in (section 4.1:
one's-complement sums are maintained with carry folding). -/
def ip_csum_with_carry (s x : ℕ) : ℕ :=
  let t := (s + x) % U64
  if t < x then t + 1 else t

/-- Modelled from the spec: the subtract-with-even-alignment step of section
4.1, removing the old address half's contribution from the checksum
accumulator.  The accumulator holds the stored checksum field, which is the
complement of the covered sum, so removing a data word's contribution is an
end-around-carry addition of that word to the accumulator; the even-alignment
rule is honoured because a 64-bit half added with end-around carries is
congruent to the sum of its four 16-bit lanes. -/
def ip_csum_sub_even (c x : ℕ) : ℕ :=
  ip_csum_with_carry c x

/-- Modelled from the spec: the add step of section 4.1, adding the new
address half's contribution to the checksum accumulator.  On the complemented
stored checksum this is a subtraction with the borrow from the high bit
folded back in (end-around borrow). -/
def ip_csum_add_even (c x : ℕ) : ℕ :=
  let d := (c + U64 - x) % U64
  if c < d then d - 1 else d

/-- Modelled from the spec: fold the end-around carries of the 64-bit
accumulator back into a 16-bit result (section 4.1): one 32-bit fold followed
by three 16-bit folds. -/
def ip_csum_fold (c : ℕ) : ℕ :=
  let c1 := c % 4294967296 + c / 4294967296
  let c2 := c1 % 65536 + c1 / 65536
  let c3 := c2 % 65536 + c2 / 65536
  let c4 := c3 % 65536 + c3 / 65536
  c4

/-! ## IPv6 addresses -/

/-- An IPv6 address as its eight 16-bit words, w0 first on the wire. -/
structure Ip6Address where
  w0 : ℕ
  w1 : ℕ
  w2 : ℕ
  w3 : ℕ
  w4 : ℕ
  w5 : ℕ
  w6 : ℕ
  w7 : ℕ
deriving DecidableEq

/-- Well-formedness: every word of the address fits in 16 bits. -/
def Ip6Address.wf (a : Ip6Address) : Prop :=
  a.w0 < 65536 ∧ a.w1 < 65536 ∧ a.w2 < 65536 ∧ a.w3 < 65536 ∧
  a.w4 < 65536 ∧ a.w5 < 65536 ∧ a.w6 < 65536 ∧ a.w7 < 65536

instance (a : Ip6Address) : Decidable a.wf :=
  inferInstanceAs (Decidable (_ ∧ _ ∧ _ ∧ _ ∧ _ ∧ _ ∧ _ ∧ _))

/-- First 64-bit half of the address (as_u64 index 0): words 0..3 combined in
16-bit lanes (multipliers 2 to the 16, 32 and 48). -/
def Ip6Address.as_u64_0 (a : Ip6Address) : ℕ :=
  a.w0 + a.w1 * 65536 + a.w2 * 4294967296 + a.w3 * 281474976710656

/-- Second 64-bit half of the address (as_u64 index 1): words 4..7 combined
in 16-bit lanes. -/
def Ip6Address.as_u64_1 (a : Ip6Address) : ℕ :=
  a.w4 + a.w5 * 65536 + a.w6 * 4294967296 + a.w7 * 281474976710656

/-- The eight 16-bit words of the address, in wire order. -/
def Ip6Address.words (a : Ip6Address) : List ℕ :=
  [a.w0, a.w1, a.w2, a.w3, a.w4, a.w5, a.w6, a.w7]

/-- The k-th 16-bit word of the address (0 beyond index 7). -/
def Ip6Address.wordAt (a : Ip6Address) : ℕ → ℕ
  | 0 => a.w0
  | 1 => a.w1
  | 2 => a.w2
  | 3 => a.w3
  | 4 => a.w4
  | 5 => a.w5
  | 6 => a.w6
  | 7 => a.w7
  | _ => 0

/-- The checksum adjustment of lines 199-203: remove the two halves of the
old source address from the stored checksum, add the two halves of the new
(outside) address, and fold the 64-bit accumulator back to 16 bits. -/
def nat66_adjust_checksum (ck : ℕ) (oldA newA : Ip6Address) : ℕ :=
  ip_csum_fold
    (ip_csum_add_even
      (ip_csum_add_even
        (ip_csum_sub_even (ip_csum_sub_even ck oldA.as_u64_0) oldA.as_u64_1)
        newA.as_u64_0)
      newA.as_u64_1)

/-- One's-complement sum of a list of 16-bit words in the 64-bit accumulator
starting from zero, carries folded in at each step. -/
def ip_csum_sum (ws : List ℕ) : ℕ :=
  ws.foldl ip_csum_with_carry 0

/-- Modelled from the spec: the transport checksum recomputed from scratch
over the packet including the pseudo-header (section 8, checksum
correctness).  The covered 16-bit words are the eight source-address words
followed by all remaining covered words (destination address, length,
protocol, transport header with the checksum field taken as zero, payload);
the stored field is the complement of the folded one's-complement sum. -/
def transportChecksumFromScratch (src : Ip6Address) (rest : List ℕ) : ℕ :=
  65535 - ip_csum_fold (ip_csum_sum (src.words ++ rest))

/-! ## Translation eligibility classifier -/

/-- Invalid FIB node index, the u32 all-ones value. -/
def FIB_NODE_INDEX_INVALID : ℕ := 4294967295

/-- The u32 all-ones value used by the code as the unresolved interface
marker. -/
def u32_max : ℕ := 4294967295

/-- A registered NAT interface: its interface index and whether it carries
the outside role flag. -/
structure SnatInterface where
  sw_if_index : ℕ
  flag_is_outside : Bool
deriving DecidableEq

/-- Role query on a registered NAT interface (external registry contract). -/
def nat_interface_is_outside (i : SnatInterface) : Bool :=
  i.flag_is_outside

/-- A static mapping as consumed by the rewrite: the outside (external)
address and the stable pool index used for counter attribution. -/
structure StaticMapping where
  e_addr : Ip6Address
  idx : ℕ
deriving DecidableEq

/-- The environment of external collaborators and NAT66 global state consumed
by the node: FIB lookup, resolving-interface query, ingress-FIB resolution,
the distinguished outside FIB, the registered-interface registry, the
static-mapping point lookup (queried with the is-local flag fixed to 1 as at
line 175), the IPv6 header parser (returning the transport protocol and the
transport-header word offset, or failure), and the processing-thread id. -/
structure Nat66Env where
  fib_table_lookup : ℕ → Ip6Address → ℕ
  fib_entry_get_resolving_interface : ℕ → ℕ
  fib_table_get_index_for_sw_if_index : ℕ → ℕ
  outside_fib_index : ℕ
  interfaces : List SnatInterface
  nat66_static_mapping_get : Ip6Address → ℕ → Option StaticMapping
  ip6_parse : List ℕ → Option (ℕ × ℕ)
  thread_index : ℕ

/-- The eligibility classifier of lines 70-108.  Looks up the destination in
the ingress FIB; no route means do-not-translate.  If the route's resolving
interface is the unresolved marker, retries the lookup in the outside FIB; no
route there also means do-not-translate.  Otherwise scans the registered NAT
interfaces and translates exactly when one with the outside role has the
resolved interface index (pool_foreach early return at line 103).  Returns
true when the packet is NOT to be translated, as the C function does. -/
def nat66_not_translate (env : Nat66Env) (rx_fib_index : ℕ)
    (ip6_addr : Ip6Address) : Bool :=
  let fei := env.fib_table_lookup rx_fib_index ip6_addr
  if fei = FIB_NODE_INDEX_INVALID then true
  else
    let sw_if_index := env.fib_entry_get_resolving_interface fei
    if sw_if_index = u32_max then
      let fei2 := env.fib_table_lookup env.outside_fib_index ip6_addr
      if fei2 = FIB_NODE_INDEX_INVALID then true
      else
        let sw2 := env.fib_entry_get_resolving_interface fei2
        !(env.interfaces.any fun i =>
            nat_interface_is_outside i && decide (sw2 = i.sw_if_index))
    else
      !(env.interfaces.any fun i =>
          nat_interface_is_outside i && decide (sw_if_index = i.sw_if_index))

/-- The eligibility rule as the specification words it (section 4.2), for
comparison with nat66_not_translate: no route in the ingress FIB means no
translation; an unresolved interface triggers exactly one retry against the
outside FIB; if that also fails to resolve (no route, or again the unresolved
marker) the packet is not translated; once an interface is resolved the
packet is translated if and only if a registered NAT interface with the
outside role has that interface index. -/
def must_translate_spec (env : Nat66Env) (rx_fib_index : ℕ)
    (ip6_addr : Ip6Address) : Bool :=
  let fei := env.fib_table_lookup rx_fib_index ip6_addr
  if fei = FIB_NODE_INDEX_INVALID then false
  else
    let sw_if_index := env.fib_entry_get_resolving_interface fei
    if sw_if_index = u32_max then
      let fei2 := env.fib_table_lookup env.outside_fib_index ip6_addr
      if fei2 = FIB_NODE_INDEX_INVALID then false
      else
        let sw2 := env.fib_entry_get_resolving_interface fei2
        if sw2 = u32_max then false
        else
          env.interfaces.any fun i =>
            nat_interface_is_outside i && decide (sw2 = i.sw_if_index)
    else
      env.interfaces.any fun i =>
        nat_interface_is_outside i && decide (sw_if_index = i.sw_if_index)

/-- Number of FIB table lookups performed along the control path of
nat66_not_translate: one for the ingress-FIB lookup, plus one more exactly
when the first lookup found a route whose resolving interface is the
unresolved marker (the fallback of lines 90-96). -/
def nat66_lookup_count (env : Nat66Env) (rx_fib_index : ℕ)
    (ip6_addr : Ip6Address) : ℕ :=
  let fei := env.fib_table_lookup rx_fib_index ip6_addr
  if fei = FIB_NODE_INDEX_INVALID then 1
  else if env.fib_entry_get_resolving_interface fei = u32_max then 2
  else 1

/-! ## Packet rewrite engine and batch loop -/

/-- Transport protocol numbers dispatched at lines 181-196. -/
def IP_PROTOCOL_UDP : ℕ := 17

/-- TCP protocol number. -/
def IP_PROTOCOL_TCP : ℕ := 6

/-- ICMPv6 protocol number. -/
def IP_PROTOCOL_ICMP6 : ℕ := 58

/-- Word index of the 16-bit transport checksum field for the given parsed
protocol and transport-header word offset, none for any other protocol (the
dispatch of lines 181-197, in source order UDP, TCP, ICMPv6).  The in-header
positions come from the external header layouts: word 3 of the UDP header,
word 8 of the TCP header, word 1 of the ICMPv6 header. -/
def checksumWordIndex (l4_protocol l4_offset : ℕ) : Option ℕ :=
  if l4_protocol = IP_PROTOCOL_UDP then some (l4_offset + 3)
  else if l4_protocol = IP_PROTOCOL_TCP then some (l4_offset + 8)
  else if l4_protocol = IP_PROTOCOL_ICMP6 then some (l4_offset + 1)
  else none

/-- Source address read from words 4..11 of the packet. -/
def srcOf (ws : List ℕ) : Ip6Address :=
  ⟨ws.getD 4 0, ws.getD 5 0, ws.getD 6 0, ws.getD 7 0,
   ws.getD 8 0, ws.getD 9 0, ws.getD 10 0, ws.getD 11 0⟩

/-- Destination address read from words 12..19 of the packet. -/
def dstOf (ws : List ℕ) : Ip6Address :=
  ⟨ws.getD 12 0, ws.getD 13 0, ws.getD 14 0, ws.getD 15 0,
   ws.getD 16 0, ws.getD 17 0, ws.getD 18 0, ws.getD 19 0⟩

/-- Overwrite words 4..11 of the packet with the given address (the two
64-bit stores of lines 206-207). -/
def setSrc (ws : List ℕ) (a : Ip6Address) : List ℕ :=
  ((((((((ws.set 4 a.w0).set 5 a.w1).set 6 a.w2).set 7 a.w3).set 8
             a.w4).set 9 a.w5).set 10 a.w6).set 11 a.w7)

/-- A packet buffer: its 16-bit words, the ingress interface index
(sw_if_index of the RX metadata), and the total byte length of the buffer
chain as reported to the per-mapping counter. -/
structure VlibBuffer where
  words : List ℕ
  rx_sw_if_index : ℕ
  chain_byte_length : ℕ
deriving DecidableEq

/-- Per-packet disposition: the two next nodes of the registration block,
ip6-lookup (forward) and error-drop. -/
inductive Disposition where
  | ip6Lookup : Disposition
  | drop : Disposition
deriving DecidableEq

/-- Outcome of processing one packet: the disposition, the (possibly
rewritten) buffer, the per-mapping combined-counter increment as the triple
(thread index, mapping index, byte length) standing for an increment of one
packet and that many bytes (line 209), and whether the parse-error counter
was charged for this packet (the UNKNOWN error of line 163). -/
structure PacketResult where
  next0 : Disposition
  buf : VlibBuffer
  smCounter : Option (ℕ × ℕ × ℕ)
  parseError : Bool
deriving DecidableEq

/-- The per-packet body of the inner loop, lines 130-228: parse, classify,
resolve the mapping, rewrite the checksum and the source address, and record
the per-mapping counter increment.  Early exits (goto trace0) become early
results. -/
def processPacket (env : Nat66Env) (b : VlibBuffer) : PacketResult :=
  match env.ip6_parse b.words with
  | none => ⟨Disposition.drop, b, none, true⟩
  | some (l4_protocol, l4_offset) =>
    let fib_index := env.fib_table_get_index_for_sw_if_index b.rx_sw_if_index
    if nat66_not_translate env fib_index (dstOf b.words) then
      ⟨Disposition.ip6Lookup, b, none, false⟩
    else
      match env.nat66_static_mapping_get (srcOf b.words) fib_index with
      | none => ⟨Disposition.ip6Lookup, b, none, false⟩
      | some sm =>
        let words1 :=
          match checksumWordIndex l4_protocol l4_offset with
          | some ci =>
            b.words.set ci
              (nat66_adjust_checksum (b.words.getD ci 0) (srcOf b.words)
                sm.e_addr)
          | none => b.words
        let words2 := setSrc words1 sm.e_addr
        ⟨Disposition.ip6Lookup,
         ⟨words2, b.rx_sw_if_index, b.chain_byte_length⟩,
         some (env.thread_index, sm.idx, b.chain_byte_length), false⟩

/-- Number of times the per-packet body consults the eligibility classifier
and the mapping resolver, along its control path: neither after a parse
failure; the classifier once after a successful parse; the resolver once more
only when the classifier answered translate. -/
def processPacketConsults (env : Nat66Env) (b : VlibBuffer) : ℕ × ℕ :=
  match env.ip6_parse b.words with
  | none => (0, 0)
  | some _ =>
    let fib_index := env.fib_table_get_index_for_sw_if_index b.rx_sw_if_index
    if nat66_not_translate env fib_index (dstOf b.words) then (1, 0)
    else (1, 1)

/-- The batch loop of lines 124-231: process the input packets in order,
accumulating the running pkts_processed total (line 224 adds one for every
disposition other than drop). -/
def nat66_in2out_inner_loop (env : Nat66Env) :
    List VlibBuffer → ℕ → List PacketResult × ℕ
  | [], pkts_processed => ([], pkts_processed)
  | b :: rest, pkts_processed =>
    let r := processPacket env b
    let step :=
      nat66_in2out_inner_loop env rest
        (pkts_processed + if r.next0 = Disposition.drop then 0 else 1)
    (r :: step.1, step.2)

/-- Output of one node invocation: the per-packet results in input order, the
single batch-level increment of the good-packets counter (line 233, reported
once per batch), and the returned frame vector count (line 236). -/
structure NodeOutput where
  results : List PacketResult
  in2out_packets_counter : ℕ
  returned_n_vectors : ℕ
deriving DecidableEq

/-- The node function (lines 110-237): run the batch loop over the frame,
then increment the good-packets counter once with the accumulated total and
return the number of input vectors. -/
def nat66_in2out_node (env : Nat66Env) (bufs : List VlibBuffer) : NodeOutput :=
  let step := nat66_in2out_inner_loop env bufs 0
  ⟨step.1, step.2, bufs.length⟩

/-! ## Concrete test fixtures for witnesses and counterexamples -/

/-- Concrete inside address: word 0 is 1, the rest zero. -/
def addrA : Ip6Address := ⟨1, 0, 0, 0, 0, 0, 0, 0⟩

/-- Concrete outside address: word 1 is 2, the rest zero. -/
def addrB : Ip6Address := ⟨0, 2, 0, 0, 0, 0, 0, 0⟩

/-- Concrete destination address. -/
def addrD : Ip6Address := ⟨9, 9, 9, 9, 9, 9, 9, 9⟩

/-- Concrete environment: every destination resolves through FIB entry 7 to
interface 3, which is registered with the outside role; addrA and addrB both
map to outside address addrB under mapping index 4; the parser accepts
packets of at least 24 words as UDP with transport offset 20. -/
def envW : Nat66Env where
  fib_table_lookup := fun _ _ => 7
  fib_entry_get_resolving_interface := fun _ => 3
  fib_table_get_index_for_sw_if_index := fun _ => 0
  outside_fib_index := 5
  interfaces := [⟨3, true⟩]
  nat66_static_mapping_get := fun a _ =>
    if a = addrA then some ⟨addrB, 4⟩
    else if a = addrB then some ⟨addrB, 4⟩
    else none
  ip6_parse := fun ws => if 24 ≤ ws.length then some (17, 20) else none
  thread_index := 2

/-- Concrete environment in which both FIB lookups find a route but neither
route resolves to a concrete interface. -/
def envU : Nat66Env where
  fib_table_lookup := fun _ _ => 7
  fib_entry_get_resolving_interface := fun _ => 4294967295
  fib_table_get_index_for_sw_if_index := fun _ => 0
  outside_fib_index := 5
  interfaces := [⟨3, true⟩]
  nat66_static_mapping_get := fun _ _ => none
  ip6_parse := fun ws => if 24 ≤ ws.length then some (17, 20) else none
  thread_index := 2

/-- Concrete UDP packet from addrA to addrD, 24 words, stored transport
checksum zero (word 23). -/
def bufW : VlibBuffer :=
  ⟨[6, 0, 0, 64] ++ addrA.words ++ addrD.words ++ [1000, 53, 8, 0], 1, 48⟩

/-- Concrete packet whose source address has no static mapping. -/
def bufMiss : VlibBuffer :=
  ⟨[6, 0, 0, 64] ++ addrD.words ++ addrD.words ++ [1000, 53, 8, 0], 1, 48⟩

/-- Concrete already-translated packet: its source address is already the
outside address addrB of its mapping. -/
def bufReap : VlibBuffer :=
  ⟨[6, 0, 0, 64] ++ addrB.words ++ addrD.words ++ [1000, 53, 8, 7], 1, 48⟩

/-- Concrete malformed packet: too short for the parser. -/
def bufShort : VlibBuffer := ⟨[1, 2, 3], 0, 6⟩

/-! ## Arithmetic lemmas about the checksum primitives -/

/-- The carry-folding addition stays inside the 64-bit accumulator. -/
theorem ip_csum_with_carry_lt {s x : ℕ} (hs : s < U64) (hx : x < U64) :
    ip_csum_with_carry s x < U64 := by
  simp only [ip_csum_with_carry, U64] at *
  split_ifs <;> omega

/-- The carry-folding addition is addition modulo 65535. -/
theorem ip_csum_with_carry_modM {s x : ℕ} (hs : s < U64) (hx : x < U64) :
    ip_csum_with_carry s x % 65535 = (s + x) % 65535 := by
  simp only [ip_csum_with_carry, U64] at *
  split_ifs <;> omega

/-- The subtract-with-even-alignment step stays inside the accumulator. -/
theorem ip_csum_sub_even_lt {c x : ℕ} (hc : c < U64) (hx : x < U64) :
    ip_csum_sub_even c x < U64 :=
  ip_csum_with_carry_lt hc hx

/-- The subtract-with-even-alignment step adds its argument modulo 65535. -/
theorem ip_csum_sub_even_modM {c x : ℕ} (hc : c < U64) (hx : x < U64) :
    ip_csum_sub_even c x % 65535 = (c + x) % 65535 :=
  ip_csum_with_carry_modM hc hx

/-- Exact value of the subtract-with-even-alignment step. -/
theorem ip_csum_sub_even_exact {c x : ℕ} (hc : c < U64) (hx : x < U64) :
    ip_csum_sub_even c x = if c + x < U64 then c + x else c + x - (U64 - 1) := by
  simp only [ip_csum_sub_even, ip_csum_with_carry, U64] at *
  split_ifs <;> omega

/-- The add step stays inside the accumulator. -/
theorem ip_csum_add_even_lt {c x : ℕ} (hc : c < U64) (hx : x < U64) :
    ip_csum_add_even c x < U64 := by
  simp only [ip_csum_add_even, U64] at *
  split_ifs <;> omega

/-- The add step removes its argument modulo 65535. -/
theorem ip_csum_add_even_modM {c x : ℕ} (hc : c < U64) (hx : x < U64) :
    (ip_csum_add_even c x + x) % 65535 = c % 65535 := by
  simp only [ip_csum_add_even, U64] at *
  split_ifs <;> omega

/-- Exact value of the add step. -/
theorem ip_csum_add_even_exact {c x : ℕ} (hc : c < U64) (hx : x < U64) :
    ip_csum_add_even c x = if x ≤ c then c - x else c + (U64 - 1) - x := by
  simp only [ip_csum_add_even, U64] at *
  split_ifs <;> omega

/-- Folding reduces any accumulator value to at most 16 bits. -/
theorem ip_csum_fold_le {c : ℕ} (hc : c < U64) : ip_csum_fold c ≤ 65535 := by
  simp only [ip_csum_fold, U64] at *
  omega

/-- Folding preserves the value modulo 65535. -/
theorem ip_csum_fold_modM (c : ℕ) : ip_csum_fold c % 65535 = c % 65535 := by
  simp only [ip_csum_fold]
  omega

/-- Folding a value that already fits in 16 bits is the identity. -/
theorem ip_csum_fold_small {c : ℕ} (hc : c ≤ 65535) : ip_csum_fold c = c := by
  simp only [ip_csum_fold]
  omega

/-- The full delta chain of lines 199-203 with the same address subtracted
and added back is exactly the identity on 16-bit stored checksums. -/
theorem adjust_chain_eq {c x0 x1 : ℕ} (hc : c ≤ 65535) (h0 : x0 < U64)
    (h1 : x1 < U64) :
    ip_csum_add_even
      (ip_csum_add_even (ip_csum_sub_even (ip_csum_sub_even c x0) x1) x0)
      x1 = c := by
  simp only [ip_csum_sub_even, ip_csum_with_carry, ip_csum_add_even, U64] at *
  split_ifs <;> omega

/-- The full delta chain of lines 199-203, modulo 65535: the result plus the
new halves is congruent to the stored checksum plus the old halves. -/
theorem adjust_chain_modM {c o0 o1 n0 n1 : ℕ} (hc : c < U64) (ho0 : o0 < U64)
    (ho1 : o1 < U64) (hn0 : n0 < U64) (hn1 : n1 < U64) :
    (ip_csum_add_even
        (ip_csum_add_even (ip_csum_sub_even (ip_csum_sub_even c o0) o1) n0)
        n1 + n0 + n1) % 65535 = (c + o0 + o1) % 65535 := by
  have l1 := ip_csum_sub_even_lt hc ho0
  have h1 := ip_csum_sub_even_modM hc ho0
  have l2 := ip_csum_sub_even_lt l1 ho1
  have h2 := ip_csum_sub_even_modM l1 ho1
  have l3 := ip_csum_add_even_lt l2 hn0
  have h3 := ip_csum_add_even_modM l2 hn0
  have h4 := ip_csum_add_even_modM l3 hn1
  omega

/-- The one's-complement list sum, relative to an arbitrary start value:
bound and value modulo 65535. -/
theorem ip_csum_foldl_spec (ws : List ℕ) :
    ∀ s : ℕ, s < U64 → (∀ w ∈ ws, w < U64) →
      ws.foldl ip_csum_with_carry s < U64 ∧
        (ws.foldl ip_csum_with_carry s) % 65535 = (s + ws.sum) % 65535 := by
  induction ws with
  | nil => intro s hs _; simpa using hs
  | cons w t ih =>
    intro s hs hws
    have hw : w < U64 := hws w (List.mem_cons_self w t)
    have ht : ∀ v ∈ t, v < U64 := fun v hv => hws v (List.mem_cons_of_mem w hv)
    have hstep := ip_csum_with_carry_lt hs hw
    have hmod := ip_csum_with_carry_modM hs hw
    have ihh := ih (ip_csum_with_carry s w) hstep ht
    refine ⟨by simpa using ihh.1, ?_⟩
    have := ihh.2
    simp only [List.foldl_cons, List.sum_cons]
    omega

/-- The one's-complement sum of 16-bit words is bounded by the accumulator. -/
theorem ip_csum_sum_lt {ws : List ℕ} (hws : ∀ w ∈ ws, w < U64) :
    ip_csum_sum ws < U64 :=
  (ip_csum_foldl_spec ws 0 (by simp only [U64]; omega) hws).1

/-- The one's-complement sum agrees with the plain sum modulo 65535. -/
theorem ip_csum_sum_modM {ws : List ℕ} (hws : ∀ w ∈ ws, w < U64) :
    ip_csum_sum ws % 65535 = ws.sum % 65535 := by
  have := (ip_csum_foldl_spec ws 0 (by simp only [U64]; omega) hws).2
  simpa using this

/-- The first 64-bit half of a well-formed address fits the accumulator. -/
theorem as_u64_0_lt {a : Ip6Address} (h : a.wf) : a.as_u64_0 < U64 := by
  obtain ⟨h0, h1, h2, h3, _, _, _, _⟩ := h
  simp only [Ip6Address.as_u64_0, U64]
  omega

/-- The second 64-bit half of a well-formed address fits the accumulator. -/
theorem as_u64_1_lt {a : Ip6Address} (h : a.wf) : a.as_u64_1 < U64 := by
  obtain ⟨_, _, _, _, h4, h5, h6, h7⟩ := h
  simp only [Ip6Address.as_u64_1, U64]
  omega

/-- Even alignment: summing the two 64-bit halves of an address is congruent
modulo 65535 to summing its eight 16-bit words. -/
theorem as_u64_sum_modM (a : Ip6Address) :
    (a.as_u64_0 + a.as_u64_1) % 65535 = a.words.sum % 65535 := by
  simp only [Ip6Address.as_u64_0, Ip6Address.as_u64_1, Ip6Address.words,
    List.sum_cons, List.sum_nil]
  omega

/-- Every word of a well-formed address fits the accumulator. -/
theorem words_lt_U64 {a : Ip6Address} (h : a.wf) :
    ∀ w ∈ a.words, w < U64 := by
  obtain ⟨h0, h1, h2, h3, h4, h5, h6, h7⟩ := h
  simp only [Ip6Address.words, List.mem_cons, List.not_mem_nil, or_false, U64]
  rintro w (rfl | rfl | rfl | rfl | rfl | rfl | rfl | rfl) <;> omega

/-- The from-scratch checksum fits in 16 bits. -/
theorem transportChecksum_le (a : Ip6Address) (rest : List ℕ) :
    transportChecksumFromScratch a rest ≤ 65535 :=
  Nat.sub_le 65535 _

/-- The from-scratch checksum is the complement of the folded covered sum. -/
theorem transportChecksum_add (a : Ip6Address) (rest : List ℕ) (ha : a.wf)
    (hrest : ∀ w ∈ rest, w < 65536) :
    transportChecksumFromScratch a rest +
      ip_csum_fold (ip_csum_sum (a.words ++ rest)) = 65535 := by
  have hall : ∀ w ∈ a.words ++ rest, w < U64 := by
    intro w hw
    rcases List.mem_append.1 hw with hw | hw
    · exact words_lt_U64 ha w hw
    · have := hrest w hw
      simp only [U64]
      omega
  have hfold := ip_csum_fold_le (ip_csum_sum_lt hall)
  simp only [transportChecksumFromScratch]
  omega

/-! ## List helper lemmas for the in-place rewrite -/

/-- Setting one position leaves every other position unchanged. -/
theorem getD_set_ne {l : List ℕ} {i j : ℕ} (v : ℕ) (h : i ≠ j) :
    (l.set i v).getD j 0 = l.getD j 0 := by
  induction l generalizing i j with
  | nil => rfl
  | cons a t ih =>
    cases i with
    | zero =>
      cases j with
      | zero => exact absurd rfl h
      | succ j => rfl
    | succ i =>
      cases j with
      | zero => rfl
      | succ j =>
        simp only [List.set_cons_succ, List.getD_cons_succ]
        exact ih (fun hij => h (by omega))

/-- Setting an in-range position stores the given value there. -/
theorem getD_set_self {l : List ℕ} {i : ℕ} (v : ℕ) (h : i < l.length) :
    (l.set i v).getD i 0 = v := by
  induction l generalizing i with
  | nil => simp at h
  | cons a t ih =>
    cases i with
    | zero => rfl
    | succ i =>
      simp only [List.set_cons_succ, List.getD_cons_succ]
      exact ih (by simpa using h)

/-- Writing back the value already stored at a position is the identity. -/
theorem set_getD_self (l : List ℕ) (i : ℕ) : l.set i (l.getD i 0) = l := by
  induction l generalizing i with
  | nil => rfl
  | cons a t ih =>
    cases i with
    | zero => rfl
    | succ i =>
      simp only [List.getD_cons_succ, List.set_cons_succ]
      exact congrArg (List.cons a) (ih i)

/-- The source-address store preserves the packet length. -/
theorem setSrc_length (ws : List ℕ) (a : Ip6Address) :
    (setSrc ws a).length = ws.length := by
  simp [setSrc]

/-- The source-address store leaves every word outside 4..11 unchanged. -/
theorem setSrc_getD_outside {ws : List ℕ} {j : ℕ} (a : Ip6Address)
    (h : j < 4 ∨ 11 < j) : (setSrc ws a).getD j 0 = ws.getD j 0 := by
  simp only [setSrc]
  rw [getD_set_ne _ (by omega), getD_set_ne _ (by omega),
    getD_set_ne _ (by omega), getD_set_ne _ (by omega),
    getD_set_ne _ (by omega), getD_set_ne _ (by omega),
    getD_set_ne _ (by omega), getD_set_ne _ (by omega)]

/-- The source-address store writes the k-th address word at word 4 + k. -/
theorem setSrc_getD_src {ws : List ℕ} (a : Ip6Address) {k : ℕ} (hk : k < 8)
    (hlen : 12 ≤ ws.length) : (setSrc ws a).getD (4 + k) 0 = a.wordAt k := by
  have hL : ∀ v0 v1 v2 v3 v4 v5 v6 v7,
      ((((((((ws.set 4 v0).set 5 v1).set 6 v2).set 7 v3).set 8
        v4).set 9 v5).set 10 v6).set 11 v7).length = ws.length := by
    intro v0 v1 v2 v3 v4 v5 v6 v7
    simp
  interval_cases k
  · simp only [setSrc]
    rw [getD_set_ne _ (by omega), getD_set_ne _ (by omega),
      getD_set_ne _ (by omega), getD_set_ne _ (by omega),
      getD_set_ne _ (by omega), getD_set_ne _ (by omega),
      getD_set_ne _ (by omega)]
    exact getD_set_self _ (by omega)
  · simp only [setSrc]
    rw [getD_set_ne _ (by omega), getD_set_ne _ (by omega),
      getD_set_ne _ (by omega), getD_set_ne _ (by omega),
      getD_set_ne _ (by omega), getD_set_ne _ (by omega)]
    exact getD_set_self _ (by simp; omega)
  · simp only [setSrc]
    rw [getD_set_ne _ (by omega), getD_set_ne _ (by omega),
      getD_set_ne _ (by omega), getD_set_ne _ (by omega),
      getD_set_ne _ (by omega)]
    exact getD_set_self _ (by simp; omega)
  · simp only [setSrc]
    rw [getD_set_ne _ (by omega), getD_set_ne _ (by omega),
      getD_set_ne _ (by omega), getD_set_ne _ (by omega)]
    exact getD_set_self _ (by simp; omega)
  · simp only [setSrc]
    rw [getD_set_ne _ (by omega), getD_set_ne _ (by omega),
      getD_set_ne _ (by omega)]
    exact getD_set_self _ (by simp; omega)
  · simp only [setSrc]
    rw [getD_set_ne _ (by omega), getD_set_ne _ (by omega)]
    exact getD_set_self _ (by simp; omega)
  · simp only [setSrc]
    rw [getD_set_ne _ (by omega)]
    exact getD_set_self _ (by simp; omega)
  · simp only [setSrc]
    exact getD_set_self _ (by simp; omega)

/-- Storing a packet's own source address back into it is the identity. -/
theorem setSrc_srcOf_self (ws : List ℕ) : setSrc ws (srcOf ws) = ws := by
  simp only [setSrc, srcOf]
  rw [set_getD_self, set_getD_self, set_getD_self, set_getD_self,
    set_getD_self, set_getD_self, set_getD_self, set_getD_self]

/-- Reading any position of a list of 16-bit words gives a 16-bit value. -/
theorem getD_lt_bound {ws : List ℕ} (h : ∀ w ∈ ws, w < 65536) (i : ℕ) :
    ws.getD i 0 < 65536 := by
  by_cases hi : i < ws.length
  · rw [List.getD_eq_getElem?_getD, List.getElem?_eq_getElem hi]
    exact h _ (List.getElem_mem hi)
  · rw [List.getD_eq_getElem?_getD, List.getElem?_eq_none (by omega)]
    simp

/-- Every component of the source address read from a packet whose words are
16-bit values is a 16-bit value. -/
theorem srcOf_wf {ws : List ℕ} (h : ∀ w ∈ ws, w < 65536) : (srcOf ws).wf :=
  ⟨getD_lt_bound h 4, getD_lt_bound h 5, getD_lt_bound h 6,
   getD_lt_bound h 7, getD_lt_bound h 8, getD_lt_bound h 9,
   getD_lt_bound h 10, getD_lt_bound h 11⟩

/-! ## Shape lemmas for the per-packet body and the batch loop -/

/-- On a parse failure the body drops the packet, leaves it untouched,
charges the parse-error counter and reports no mapping counter. -/
theorem processPacket_parse_fail {env : Nat66Env} {b : VlibBuffer}
    (h : env.ip6_parse b.words = none) :
    processPacket env b = ⟨Disposition.drop, b, none, true⟩ := by
  simp [processPacket, h]

/-- When the classifier answers do-not-translate the body forwards the
packet unchanged. -/
theorem processPacket_not_translated {env : Nat66Env} {b : VlibBuffer}
    {l4p l4off : ℕ} (hp : env.ip6_parse b.words = some (l4p, l4off))
    (hnt : nat66_not_translate env
      (env.fib_table_get_index_for_sw_if_index b.rx_sw_if_index)
      (dstOf b.words) = true) :
    processPacket env b = ⟨Disposition.ip6Lookup, b, none, false⟩ := by
  simp [processPacket, hp, hnt]

/-- When the mapping lookup misses the body forwards the packet unchanged. -/
theorem processPacket_mapping_miss {env : Nat66Env} {b : VlibBuffer}
    {l4p l4off : ℕ} (hp : env.ip6_parse b.words = some (l4p, l4off))
    (hnt : nat66_not_translate env
      (env.fib_table_get_index_for_sw_if_index b.rx_sw_if_index)
      (dstOf b.words) = false)
    (hm : env.nat66_static_mapping_get (srcOf b.words)
      (env.fib_table_get_index_for_sw_if_index b.rx_sw_if_index) = none) :
    processPacket env b = ⟨Disposition.ip6Lookup, b, none, false⟩ := by
  simp [processPacket, hp, hnt, hm]

/-- Shape of the result on the translated path: checksum word adjusted when
the protocol carries one, source words overwritten, counter event recorded. -/
theorem processPacket_translated {env : Nat66Env} {b : VlibBuffer}
    {l4p l4off : ℕ} {sm : StaticMapping}
    (hp : env.ip6_parse b.words = some (l4p, l4off))
    (hnt : nat66_not_translate env
      (env.fib_table_get_index_for_sw_if_index b.rx_sw_if_index)
      (dstOf b.words) = false)
    (hm : env.nat66_static_mapping_get (srcOf b.words)
      (env.fib_table_get_index_for_sw_if_index b.rx_sw_if_index) = some sm) :
    processPacket env b =
      ⟨Disposition.ip6Lookup,
       ⟨setSrc
          (match checksumWordIndex l4p l4off with
           | some ci =>
             b.words.set ci
               (nat66_adjust_checksum (b.words.getD ci 0) (srcOf b.words)
                 sm.e_addr)
           | none => b.words) sm.e_addr,
        b.rx_sw_if_index, b.chain_byte_length⟩,
       some (env.thread_index, sm.idx, b.chain_byte_length), false⟩ := by
  simp [processPacket, hp, hnt, hm]

/-- The batch loop emits exactly the per-packet results, in input order,
independently of the running counter. -/
theorem inner_loop_results (env : Nat66Env) (bufs : List VlibBuffer) :
    ∀ init : ℕ,
      (nat66_in2out_inner_loop env bufs init).1 =
        bufs.map (processPacket env) := by
  induction bufs with
  | nil => intro init; rfl
  | cons b t ih =>
    intro init
    simp only [nat66_in2out_inner_loop, List.map_cons]
    exact congrArg _ (ih _)

/-- The running pkts_processed total accumulated by the batch loop counts
exactly the packets whose disposition is not drop. -/
theorem inner_loop_count (env : Nat66Env) (bufs : List VlibBuffer) :
    ∀ init : ℕ,
      (nat66_in2out_inner_loop env bufs init).2 =
        init + (bufs.map (processPacket env)).countP
          (fun r => decide (r.next0 ≠ Disposition.drop)) := by
  induction bufs with
  | nil => intro init; simp [nat66_in2out_inner_loop]
  | cons b t ih =>
    intro init
    simp only [nat66_in2out_inner_loop, List.map_cons, List.countP_cons]
    rw [ih]
    by_cases h : (processPacket env b).next0 = Disposition.drop
    · simp [h]
    · simp [h]
      omega

/-- The registered-interface scan can never match the unresolved interface
marker when, as the registry guarantees, no registered interface carries the
all-ones index. -/
theorem scan_u32_max_eq_false {env : Nat66Env}
    (hwf : ∀ i ∈ env.interfaces, i.sw_if_index ≠ u32_max) :
    (env.interfaces.any fun i =>
      nat_interface_is_outside i && decide (u32_max = i.sw_if_index)) =
      false := by
  rcases h : env.interfaces.any fun i =>
      nat_interface_is_outside i && decide (u32_max = i.sw_if_index) with _ | _
  · rfl
  · exfalso
    obtain ⟨i, hi, hp⟩ := List.any_eq_true.1 h
    simp only [Bool.and_eq_true, decide_eq_true_eq] at hp
    exact hwf i hi hp.2.symm

/-! ## Claim theorems -/

/-- C1: the eligibility classifier decides translation exactly as the
specification states: a destination with no route in the ingress FIB is not
translated; a route whose interface cannot be resolved directly triggers one
fallback lookup of the same destination in the distinguished outside FIB
(primary FIB first), and a miss there also means no translation; once an
interface is resolved, the packet is translated if and only if some
registered NAT interface with the outside role has that interface index.
Stated as: under the registry invariant that no registered interface carries
the all-ones index, the code classifier answers translate exactly when the
specification rule does. -/
theorem nat66_not_translate_iff_spec (env : Nat66Env) (rx_fib_index : ℕ)
    (a : Ip6Address)
    (hwf : ∀ i ∈ env.interfaces, i.sw_if_index ≠ u32_max) :
    nat66_not_translate env rx_fib_index a = false ↔
      must_translate_spec env rx_fib_index a = true := by
  have hany := scan_u32_max_eq_false hwf
  simp only [nat66_not_translate, must_translate_spec]
  split_ifs <;> simp_all [hany]

/-- Witness for C1: in the concrete environment envW the destination
resolves to registered outside interface 3, so the classifier and the
specification rule agree (and both answer translate). -/
theorem nat66_c1_witness :
    nat66_not_translate envW 0 addrD = false ↔
      must_translate_spec envW 0 addrD = true :=
  nat66_not_translate_iff_spec envW 0 addrD (by decide)

/-- C10: when the primary route resolves to the unresolved marker and the
outside-FIB fallback finds a route that also resolves to the unresolved
marker, no third lookup is attempted (the classifier performs exactly two
FIB lookups, and never more than two on any input) and the unresolved value
proceeds to the registered-interface scan, matches no registered outside
interface, and the classifier answers do-not-translate. -/
theorem nat66_not_translate_unresolved_fallback (env : Nat66Env)
    (rx_fib_index : ℕ) (a : Ip6Address)
    (h1 : env.fib_table_lookup rx_fib_index a ≠ FIB_NODE_INDEX_INVALID)
    (h2 : env.fib_entry_get_resolving_interface
      (env.fib_table_lookup rx_fib_index a) = u32_max)
    (h3 : env.fib_table_lookup env.outside_fib_index a ≠
      FIB_NODE_INDEX_INVALID)
    (h4 : env.fib_entry_get_resolving_interface
      (env.fib_table_lookup env.outside_fib_index a) = u32_max)
    (hwf : ∀ i ∈ env.interfaces, i.sw_if_index ≠ u32_max) :
    nat66_not_translate env rx_fib_index a = true ∧
      nat66_lookup_count env rx_fib_index a = 2 ∧
      ∀ (fib2 : ℕ) (a2 : Ip6Address), nat66_lookup_count env fib2 a2 ≤ 2 := by
  have hany := scan_u32_max_eq_false hwf
  refine ⟨?_, ?_, ?_⟩
  · simp [nat66_not_translate, h1, h2, h3, h4, hany]
  · simp [nat66_lookup_count, h1, h2]
  · intro fib2 a2
    simp only [nat66_lookup_count]
    split_ifs <;> omega

/-- Witness for C10: in the concrete environment envU both lookups find
route 7 but neither resolves, and the classifier answers do-not-translate
after exactly two lookups. -/
theorem nat66_c10_witness :
    nat66_not_translate envU 0 addrD = true ∧
      nat66_lookup_count envU 0 addrD = 2 ∧
      nat66_lookup_count envU 1 addrA ≤ 2 := by
  have h := nat66_not_translate_unresolved_fallback envU 0 addrD (by decide)
    (by decide) (by decide) (by decide) (by decide)
  exact ⟨h.1, h.2.1, h.2.2 1 addrA⟩

/-- C4: a packet's disposition is drop exactly when its header parse fails;
on a parse failure the parse-error counter is charged once for that packet,
the buffer is untouched, no mapping counter fires, and neither the
classifier nor the mapping resolver is consulted; and the batch continues
with the remaining packets regardless of the head packet's outcome. -/
theorem nat66_parse_failure_drop :
    (∀ (env : Nat66Env) (b : VlibBuffer),
      (processPacket env b).next0 = Disposition.drop ↔
        env.ip6_parse b.words = none) ∧
    (∀ (env : Nat66Env) (b : VlibBuffer), env.ip6_parse b.words = none →
      processPacket env b = ⟨Disposition.drop, b, none, true⟩ ∧
        processPacketConsults env b = (0, 0)) ∧
    (∀ (env : Nat66Env) (b : VlibBuffer) (rest : List VlibBuffer),
      (nat66_in2out_node env (b :: rest)).results =
        processPacket env b :: (nat66_in2out_node env rest).results) := by
  refine ⟨?_, ?_, ?_⟩
  · intro env b
    rcases hp : env.ip6_parse b.words with _ | ⟨l4p, l4off⟩
    · simp [processPacket_parse_fail hp, hp]
    · rcases hnt : nat66_not_translate env
          (env.fib_table_get_index_for_sw_if_index b.rx_sw_if_index)
          (dstOf b.words) with _ | _
      · rcases hm : env.nat66_static_mapping_get (srcOf b.words)
            (env.fib_table_get_index_for_sw_if_index b.rx_sw_if_index) with
          _ | sm
        · simp [processPacket_mapping_miss hp hnt hm, hp]
        · simp [processPacket_translated hp hnt hm, hp]
      · simp [processPacket_not_translated hp hnt, hp]
  · intro env b hp
    exact ⟨processPacket_parse_fail hp, by simp [processPacketConsults, hp]⟩
  · intro env b rest
    have h1 := inner_loop_results env (b :: rest) 0
    have h2 := inner_loop_results env rest 0
    simp [nat66_in2out_node, h1, h2]

/-- Witness for C4: the malformed short packet is dropped with the error
counter charged and no collaborator consulted, and a following good packet
is still processed. -/
theorem nat66_c4_witness :
    ((processPacket envW bufShort).next0 = Disposition.drop ↔
      envW.ip6_parse bufShort.words = none) ∧
    processPacket envW bufShort = ⟨Disposition.drop, bufShort, none, true⟩ ∧
    processPacketConsults envW bufShort = (0, 0) ∧
    (nat66_in2out_node envW [bufShort, bufW]).results =
      processPacket envW bufShort ::
        (nat66_in2out_node envW [bufW]).results := by
  have h2 := nat66_parse_failure_drop.2.1 envW bufShort (by decide)
  exact ⟨nat66_parse_failure_drop.1 envW bufShort, h2.1, h2.2,
    nat66_parse_failure_drop.2.2 envW bufShort [bufW]⟩

/-- C5: a packet that parses but is not translated, either because the
classifier answers do-not-translate (unresolved route or a route to an
interface that is not a registered outside interface) or because the static
mapping lookup for its source address misses, is forwarded with its bytes
byte-for-byte unchanged and no per-mapping counter side effect. -/
theorem nat66_pass_through_unchanged (env : Nat66Env) (b : VlibBuffer)
    (l4p l4off : ℕ) (hp : env.ip6_parse b.words = some (l4p, l4off))
    (h : nat66_not_translate env
        (env.fib_table_get_index_for_sw_if_index b.rx_sw_if_index)
        (dstOf b.words) = true ∨
      (nat66_not_translate env
          (env.fib_table_get_index_for_sw_if_index b.rx_sw_if_index)
          (dstOf b.words) = false ∧
        env.nat66_static_mapping_get (srcOf b.words)
          (env.fib_table_get_index_for_sw_if_index b.rx_sw_if_index) =
          none)) :
    processPacket env b = ⟨Disposition.ip6Lookup, b, none, false⟩ := by
  rcases h with h | ⟨h1, h2⟩
  · exact processPacket_not_translated hp h
  · exact processPacket_mapping_miss hp h1 h2

/-- Witness for C5: the packet whose source has no static mapping is
forwarded completely unchanged. -/
theorem nat66_c5_witness :
    processPacket envW bufMiss =
      ⟨Disposition.ip6Lookup, bufMiss, none, false⟩ :=
  nat66_pass_through_unchanged envW bufMiss 17 20 (by decide)
    (Or.inr ⟨by decide, by decide⟩)

/-- C6: the batch loop produces exactly one disposition per input packet:
the result sequence is the input sequence mapped through the per-packet
body, its length equals the input length, and the order is preserved. -/
theorem nat66_batch_vector_invariant :
    ∀ (env : Nat66Env) (bufs : List VlibBuffer),
      (nat66_in2out_node env bufs).results = bufs.map (processPacket env) ∧
        (nat66_in2out_node env bufs).results.length = bufs.length ∧
        (nat66_in2out_node env bufs).returned_n_vectors = bufs.length := by
  intro env bufs
  have h := inner_loop_results env bufs 0
  refine ⟨by simpa [nat66_in2out_node] using h, ?_, rfl⟩
  simp [nat66_in2out_node, h]

/-- C7: the good-packets counter reported once per batch increases by
exactly the number of packets whose disposition is not drop; and every
translated packet records a per-mapping combined-counter increment of one
packet and the full packet byte length, keyed by its mapping index and the
current thread index. -/
theorem nat66_counters :
    (∀ (env : Nat66Env) (bufs : List VlibBuffer),
      (nat66_in2out_node env bufs).in2out_packets_counter =
        (nat66_in2out_node env bufs).results.countP
          (fun r => decide (r.next0 ≠ Disposition.drop))) ∧
    (∀ (env : Nat66Env) (b : VlibBuffer) (l4p l4off : ℕ)
        (sm : StaticMapping),
      env.ip6_parse b.words = some (l4p, l4off) →
      nat66_not_translate env
        (env.fib_table_get_index_for_sw_if_index b.rx_sw_if_index)
        (dstOf b.words) = false →
      env.nat66_static_mapping_get (srcOf b.words)
        (env.fib_table_get_index_for_sw_if_index b.rx_sw_if_index) =
        some sm →
      (processPacket env b).smCounter =
        some (env.thread_index, sm.idx, b.chain_byte_length)) := by
  constructor
  · intro env bufs
    have hc := inner_loop_count env bufs 0
    have hr := inner_loop_results env bufs 0
    simp [nat66_in2out_node, hc, hr]
  · intro env b l4p l4off sm hp hnt hm
    simp [processPacket_translated hp hnt hm]

/-- Witness for C7: one good packet gives a batch counter matching the
non-drop count, and its mapping counter event is mapping 4, thread 2,
48 bytes. -/
theorem nat66_c7_witness :
    (nat66_in2out_node envW [bufW]).in2out_packets_counter =
      (nat66_in2out_node envW [bufW]).results.countP
        (fun r => decide (r.next0 ≠ Disposition.drop)) ∧
    (processPacket envW bufW).smCounter = some (2, 4, 48) := by
  refine ⟨nat66_counters.1 envW [bufW], ?_⟩
  exact nat66_counters.2 envW bufW 17 20 ⟨addrB, 4⟩ (by decide) (by decide)
    (by decide)

/-- The transport checksum word index, when defined, is the transport-header
offset plus 3, 8 or 1 (UDP, TCP, ICMPv6 respectively). -/
theorem checksumWordIndex_cases {l4p l4off ci : ℕ}
    (h : checksumWordIndex l4p l4off = some ci) :
    ci = l4off + 3 ∨ ci = l4off + 8 ∨ ci = l4off + 1 := by
  simp only [checksumWordIndex] at h
  split_ifs at h <;> simp_all

/-- Rewritten words on the translated path of a checksum-bearing protocol:
the checksum word is set to the adjusted value, then the source words are
overwritten with the mapping's outside address. -/
theorem processPacket_words_ck {env : Nat66Env} {b : VlibBuffer}
    {l4p l4off ci : ℕ} {sm : StaticMapping}
    (hp : env.ip6_parse b.words = some (l4p, l4off))
    (hnt : nat66_not_translate env
      (env.fib_table_get_index_for_sw_if_index b.rx_sw_if_index)
      (dstOf b.words) = false)
    (hm : env.nat66_static_mapping_get (srcOf b.words)
      (env.fib_table_get_index_for_sw_if_index b.rx_sw_if_index) = some sm)
    (hci : checksumWordIndex l4p l4off = some ci) :
    (processPacket env b).buf.words =
      setSrc
        (b.words.set ci
          (nat66_adjust_checksum (b.words.getD ci 0) (srcOf b.words)
            sm.e_addr)) sm.e_addr := by
  rw [processPacket_translated hp hnt hm]
  simp [hci]

/-- C2: on the translated path the rewrite changes exactly the claimed
bytes: the eight source-address words become the mapping's outside address;
when the parsed protocol is TCP, UDP or ICMPv6 the 16-bit transport
checksum word becomes the adjusted checksum and every other word is
unchanged; for any other protocol no checksum word is touched, every word
outside the source address field is unchanged, and the source address is
still rewritten.  The packet length is preserved. -/
theorem nat66_rewrite_frame_effect (env : Nat66Env) (b : VlibBuffer)
    (l4p l4off : ℕ) (sm : StaticMapping)
    (hp : env.ip6_parse b.words = some (l4p, l4off))
    (hoff : 20 ≤ l4off)
    (hlen : 20 ≤ b.words.length)
    (hnt : nat66_not_translate env
      (env.fib_table_get_index_for_sw_if_index b.rx_sw_if_index)
      (dstOf b.words) = false)
    (hm : env.nat66_static_mapping_get (srcOf b.words)
      (env.fib_table_get_index_for_sw_if_index b.rx_sw_if_index) =
      some sm) :
    (processPacket env b).buf.words.length = b.words.length ∧
    (∀ k : ℕ, k < 8 →
      (processPacket env b).buf.words.getD (4 + k) 0 =
        sm.e_addr.wordAt k) ∧
    (∀ ci : ℕ, checksumWordIndex l4p l4off = some ci →
      (ci < b.words.length →
        (processPacket env b).buf.words.getD ci 0 =
          nat66_adjust_checksum (b.words.getD ci 0) (srcOf b.words)
            sm.e_addr) ∧
      ∀ j : ℕ, j < 4 ∨ (11 < j ∧ j ≠ ci) →
        (processPacket env b).buf.words.getD j 0 = b.words.getD j 0) ∧
    (checksumWordIndex l4p l4off = none →
      ∀ j : ℕ, j < 4 ∨ 11 < j →
        (processPacket env b).buf.words.getD j 0 = b.words.getD j 0) := by
  have hW : (processPacket env b).buf.words =
      setSrc
        (match checksumWordIndex l4p l4off with
         | some ci =>
           b.words.set ci
             (nat66_adjust_checksum (b.words.getD ci 0) (srcOf b.words)
               sm.e_addr)
         | none => b.words) sm.e_addr := by
    rw [processPacket_translated hp hnt hm]
  refine ⟨?_, ?_, ?_, ?_⟩
  · rw [hW]
    rcases hci : checksumWordIndex l4p l4off with _ | ci <;>
      simp [hci, setSrc_length]
  · intro k hk
    rw [hW]
    rcases hci : checksumWordIndex l4p l4off with _ | ci
    · simp only [hci]
      exact setSrc_getD_src _ hk (by omega)
    · simp only [hci]
      refine setSrc_getD_src _ hk ?_
      simp only [List.length_set]
      omega
  · intro ci hci
    have hrange := checksumWordIndex_cases hci
    constructor
    · intro hcilen
      rw [hW]
      simp only [hci]
      rw [setSrc_getD_outside _ (by omega)]
      exact getD_set_self _ hcilen
    · intro j hj
      rw [hW]
      simp only [hci]
      rw [setSrc_getD_outside _ (by omega)]
      exact getD_set_ne _ (by omega)
  · intro hnone j hj
    rw [hW]
    simp only [hnone]
    exact setSrc_getD_outside _ (by omega)

/-- Witness for C2: on the concrete UDP packet the second source word
becomes the mapping's word, the checksum word 23 becomes the adjusted
value, and word 0 is untouched. -/
theorem nat66_c2_witness :
    (processPacket envW bufW).buf.words.getD 5 0 = Ip6Address.wordAt addrB 1 ∧
    (processPacket envW bufW).buf.words.getD 23 0 =
      nat66_adjust_checksum (bufW.words.getD 23 0) (srcOf bufW.words)
        addrB ∧
    (processPacket envW bufW).buf.words.getD 0 0 = bufW.words.getD 0 0 := by
  have h := nat66_rewrite_frame_effect envW bufW 17 20 ⟨addrB, 4⟩ (by decide)
    (by decide) (by decide) (by decide) (by decide)
  exact ⟨h.2.1 1 (by omega), (h.2.2.1 23 (by decide)).1 (by decide),
    (h.2.2.1 23 (by decide)).2 0 (by omega)⟩

/-- C9: for a translated packet of a checksum-bearing protocol whose stored
transport checksum word is zero, the adjusted value is still computed from
that zero and written into the field unconditionally, with no special case
for the no-checksum value. -/
theorem nat66_zero_checksum_still_adjusted (env : Nat66Env) (b : VlibBuffer)
    (l4p l4off ci : ℕ) (sm : StaticMapping)
    (hp : env.ip6_parse b.words = some (l4p, l4off))
    (hoff : 20 ≤ l4off)
    (hnt : nat66_not_translate env
      (env.fib_table_get_index_for_sw_if_index b.rx_sw_if_index)
      (dstOf b.words) = false)
    (hm : env.nat66_static_mapping_get (srcOf b.words)
      (env.fib_table_get_index_for_sw_if_index b.rx_sw_if_index) = some sm)
    (hci : checksumWordIndex l4p l4off = some ci)
    (hcilen : ci < b.words.length)
    (hzero : b.words.getD ci 0 = 0) :
    (processPacket env b).buf.words.getD ci 0 =
      nat66_adjust_checksum 0 (srcOf b.words) sm.e_addr := by
  have hrange := checksumWordIndex_cases hci
  rw [processPacket_words_ck hp hnt hm hci,
    setSrc_getD_outside _ (by omega), getD_set_self _ hcilen, hzero]

/-- Witness for C9: the concrete UDP packet stores checksum zero at word 23
and still receives the adjusted value there. -/
theorem nat66_c9_witness :
    (processPacket envW bufW).buf.words.getD 23 0 =
      nat66_adjust_checksum 0 (srcOf bufW.words) addrB :=
  nat66_zero_checksum_still_adjusted envW bufW 17 20 23 ⟨addrB, 4⟩
    (by decide) (by decide) (by decide) (by decide) (by decide) (by decide)
    (by decide)

/-- C8: the checksum adjuster is a no-op when the old and new addresses are
equal: for every 16-bit checksum value and every address, the adjusted
checksum equals the input; consequently, re-applying the translation to an
already-translated packet whose source address already equals the mapping's
outside address leaves the whole buffer (address field and checksum field
included) unchanged. -/
theorem nat66_retranslate_noop :
    (∀ (c : ℕ) (a : Ip6Address), c ≤ 65535 → a.wf →
      nat66_adjust_checksum c a a = c) ∧
    (∀ (env : Nat66Env) (b : VlibBuffer) (l4p l4off : ℕ)
        (sm : StaticMapping),
      env.ip6_parse b.words = some (l4p, l4off) →
      (∀ w ∈ b.words, w < 65536) →
      nat66_not_translate env
        (env.fib_table_get_index_for_sw_if_index b.rx_sw_if_index)
        (dstOf b.words) = false →
      env.nat66_static_mapping_get (srcOf b.words)
        (env.fib_table_get_index_for_sw_if_index b.rx_sw_if_index) =
        some sm →
      srcOf b.words = sm.e_addr →
      (processPacket env b).buf = b) := by
  constructor
  · intro c a hc ha
    simp only [nat66_adjust_checksum]
    rw [adjust_chain_eq hc (as_u64_0_lt ha) (as_u64_1_lt ha),
      ip_csum_fold_small hc]
  · intro env b l4p l4off sm hp hwords hnt hm hsrc
    have hwf : sm.e_addr.wf := hsrc ▸ srcOf_wf hwords
    have hB : (processPacket env b).buf =
        ⟨setSrc
          (match checksumWordIndex l4p l4off with
           | some ci =>
             b.words.set ci
               (nat66_adjust_checksum (b.words.getD ci 0) (srcOf b.words)
                 sm.e_addr)
           | none => b.words) sm.e_addr,
         b.rx_sw_if_index, b.chain_byte_length⟩ := by
      rw [processPacket_translated hp hnt hm]
    have hinner :
        (match checksumWordIndex l4p l4off with
         | some ci =>
           b.words.set ci
             (nat66_adjust_checksum (b.words.getD ci 0) (srcOf b.words)
               sm.e_addr)
         | none => b.words) = b.words := by
      rcases hci : checksumWordIndex l4p l4off with _ | ci
      · simp only [hci]
      · simp only [hci]
        have hle : b.words.getD ci 0 ≤ 65535 := by
          have := getD_lt_bound hwords ci
          omega
        have hfix : nat66_adjust_checksum (b.words.getD ci 0)
            (srcOf b.words) sm.e_addr = b.words.getD ci 0 := by
          rw [hsrc]
          simp only [nat66_adjust_checksum]
          rw [adjust_chain_eq hle (as_u64_0_lt hwf) (as_u64_1_lt hwf),
            ip_csum_fold_small hle]
        rw [hfix, set_getD_self]
    rw [hB, hinner, ← hsrc, setSrc_srcOf_self]

/-- Witness for C8: the adjuster fixes a concrete checksum under equal
addresses, and the already-translated concrete packet passes through the
rewrite byte-for-byte unchanged. -/
theorem nat66_c8_witness :
    nat66_adjust_checksum 4660 addrA addrA = 4660 ∧
    (processPacket envW bufReap).buf = bufReap := by
  constructor
  · exact nat66_retranslate_noop.1 4660 addrA (by omega) (by decide)
  · exact nat66_retranslate_noop.2 envW bufReap 17 20 ⟨addrB, 4⟩ (by decide)
      (by decide) (by decide) (by decide) (by decide)

/-- C3 counterexample: a packet on which the delta-adjusted checksum
differs from the checksum recomputed from scratch over the rewritten
packet, even though the stored checksum was valid (equal to the from
scratch value, here 1) before the rewrite.  The old source address is
addrA, the new one addrB, and the single remaining covered word is 65533;
the delta path lands on the one's-complement representative 65535 while
the from-scratch recomputation yields 0. -/
theorem nat66_c3_counterexample :
    transportChecksumFromScratch addrA [65533] = 1 ∧
    nat66_adjust_checksum (transportChecksumFromScratch addrA [65533]) addrA
        addrB ≠ transportChecksumFromScratch addrB [65533] := by
  decide

/-- C3 (amended): for every packet whose stored transport checksum is valid
before the rewrite (equal to the one's-complement checksum recomputed from
scratch over the covered words including the pseudo-header), the O(1) delta
adjustment of lines 199-203 (subtract the old address's two 64-bit halves
with even alignment, add the new address's two halves, fold the end-around
carries into 16 bits, never re-summing the payload) produces a checksum
that is valid for the rewritten packet up to the one's-complement zero
representative: it equals the from-scratch recomputation, except that the
pair 0 and 65535, which verify identically, may be interchanged. -/
theorem nat66_checksum_delta_valid (oldA newA : Ip6Address) (rest : List ℕ)
    (hold : oldA.wf) (hnew : newA.wf) (hrest : ∀ w ∈ rest, w < 65536)
    (stored : ℕ)
    (hstored : stored = transportChecksumFromScratch oldA rest) :
    nat66_adjust_checksum stored oldA newA =
        transportChecksumFromScratch newA rest ∨
      (nat66_adjust_checksum stored oldA newA = 0 ∧
        transportChecksumFromScratch newA rest = 65535) ∨
      (nat66_adjust_checksum stored oldA newA = 65535 ∧
        transportChecksumFromScratch newA rest = 0) := by
  subst hstored
  have hstle : transportChecksumFromScratch oldA rest ≤ 65535 :=
    transportChecksum_le _ _
  have hstlt : transportChecksumFromScratch oldA rest < U64 := by
    simp only [U64]
    omega
  have ho0 := as_u64_0_lt hold
  have ho1 := as_u64_1_lt hold
  have hn0 := as_u64_0_lt hnew
  have hn1 := as_u64_1_lt hnew
  have hchain := adjust_chain_modM hstlt ho0 ho1 hn0 hn1
  have l1 := ip_csum_sub_even_lt hstlt ho0
  have l2 := ip_csum_sub_even_lt l1 ho1
  have l3 := ip_csum_add_even_lt l2 hn0
  have l4 := ip_csum_add_even_lt l3 hn1
  have hadj_le := ip_csum_fold_le l4
  have hfoldmod := ip_csum_fold_modM
    (ip_csum_add_even
      (ip_csum_add_even
        (ip_csum_sub_even
          (ip_csum_sub_even (transportChecksumFromScratch oldA rest)
            oldA.as_u64_0) oldA.as_u64_1) newA.as_u64_0) newA.as_u64_1)
  have hallold : ∀ w ∈ oldA.words ++ rest, w < U64 := by
    intro w hw
    rcases List.mem_append.1 hw with hw | hw
    · exact words_lt_U64 hold w hw
    · have := hrest w hw
      simp only [U64]
      omega
  have hallnew : ∀ w ∈ newA.words ++ rest, w < U64 := by
    intro w hw
    rcases List.mem_append.1 hw with hw | hw
    · exact words_lt_U64 hnew w hw
    · have := hrest w hw
      simp only [U64]
      omega
  have hsum_old_mod := ip_csum_sum_modM hallold
  have hsum_new_mod := ip_csum_sum_modM hallnew
  have hfold_old_mod := ip_csum_fold_modM (ip_csum_sum (oldA.words ++ rest))
  have hfold_new_mod := ip_csum_fold_modM (ip_csum_sum (newA.words ++ rest))
  have hcomp_old := transportChecksum_add oldA rest hold hrest
  have hcomp_new := transportChecksum_add newA rest hnew hrest
  have hword_old := as_u64_sum_modM oldA
  have hword_new := as_u64_sum_modM newA
  have hfresh_le := transportChecksum_le newA rest
  have hsplit_old : (oldA.words ++ rest).sum = oldA.words.sum + rest.sum :=
    List.sum_append
  have hsplit_new : (newA.words ++ rest).sum = newA.words.sum + rest.sum :=
    List.sum_append
  simp only [nat66_adjust_checksum]
  omega

/-- Witness for the amended C3 at the counterexample input: the disjunction
holds there through its third case. -/
theorem nat66_c3_witness :
    nat66_adjust_checksum (transportChecksumFromScratch addrA [65533]) addrA
        addrB = transportChecksumFromScratch addrB [65533] ∨
      (nat66_adjust_checksum (transportChecksumFromScratch addrA [65533])
          addrA addrB = 0 ∧
        transportChecksumFromScratch addrB [65533] = 65535) ∨
      (nat66_adjust_checksum (transportChecksumFromScratch addrA [65533])
          addrA addrB = 65535 ∧
        transportChecksumFromScratch addrB [65533] = 0) :=
  nat66_checksum_delta_valid addrA addrB [65533] (by decide) (by decide)
    (by decide) _ rfl

end Nat66
